import Mathlib

/-!
Verification of the osmABTS core: the expat-based OSM parser
(`src/osmABTS/readosm.py`) and the road-network reducer
(`src/osmABTS/network.py`), shallowly embedded in Lean.

Python's dynamic values are embedded as the inductive `PyVal`; Python
exceptions are embedded as `Except PyErr`.  Dictionaries are association
lists whose insertion replaces the value of an existing key in place
(Python dict assignment semantics).  Floating-point coordinates, distances
and speeds are embedded as rationals; the external geodesic distance
function (`geopy.distance.vincenty`) is an explicit parameter `dist` of the
reducer.
-/

namespace OsmABTS

/-- Coordinate pair `(lat, lon)`. -/
abbrev Coord := ℚ × ℚ

/-- Python string-keyed dictionaries (tags, XML attributes). -/
abbrev Tags := List (String × String)

deriving instance DecidableEq for Except

/-- The Python exceptions the embedded code can raise. -/
inductive PyErr
  | keyError (k : String)
  | indexError
  | attributeError (attr : String)
  | typeError
  | valueError (msg : String)
deriving DecidableEq, Repr

/-- `readosm.Node`: coordinate plus tag dictionary. -/
structure Node where
  coord : Coord
  tags : Tags
deriving DecidableEq, Repr

/-- `readosm.Way`: list of node identity references plus tag dictionary. -/
structure Way where
  nodes : List Int
  tags : Tags
deriving DecidableEq, Repr

/-- The Python values that flow through the parser and the raw store: bare
`Node` and `Way` instances, `None` (the sentinel pushed for `relation`
elements) and the `(identity, entity)` pairs the parser pushes on its
stack.  `type(v)` dispatch in the source becomes a `match` on the
constructor; note that a pair is a `tuple`, not a `Node` or a `Way`. -/
inductive PyVal
  | nodeV (n : Node)
  | wayV (w : Way)
  | noneV
  | tupIdV (id : Int) (v : PyVal)
deriving DecidableEq, Repr

/-- Lookup in a string-keyed Python dict (`d[k]` where present, else
`None` via `in` tests). -/
def strLookup {α : Type} : List (String × α) → String → Option α
  | [], _ => none
  | (k', v) :: rest, k => if k' == k then some v else strLookup rest k

/-- Python dict assignment `d[k] = v` for string keys: replaces the value of
an existing key in place, otherwise appends (insertion order preserved). -/
def strInsert {α : Type} : List (String × α) → String → α → List (String × α)
  | [], k, v => [(k, v)]
  | (k', v') :: rest, k, v =>
      if k' == k then (k', v) :: rest else (k', v') :: strInsert rest k v

/-- Lookup in an integer-keyed Python dict. -/
def dLookup {α : Type} : List (Int × α) → Int → Option α
  | [], _ => none
  | (k', v) :: rest, k => if k' == k then some v else dLookup rest k

/-- Python dict assignment `d[k] = v` for integer keys. -/
def dInsert {α : Type} : List (Int × α) → Int → α → List (Int × α)
  | [], k, v => [(k, v)]
  | (k', v') :: rest, k, v =>
      if k' == k then (k', v) :: rest else (k', v') :: dInsert rest k v

/-- Reads a run of decimal digits, accumulating their value. -/
def pyNatAux : List Char → Nat → Option Nat
  | [], acc => some acc
  | c :: rest, acc =>
      if c.isDigit then pyNatAux rest (acc * 10 + (c.toNat - 48)) else none

/-- A non-empty run of decimal digits as a number. -/
def pyNatDigits : List Char → Option Nat
  | [] => none
  | l => pyNatAux l 0

/-- Python `int(s)` for the decimal attribute strings the parser meets:
an optionally signed digit run; anything else raises `ValueError`. -/
def pyInt (s : String) : Except PyErr Int :=
  match s.data with
  | '-' :: rest =>
      match pyNatDigits rest with
      | some n => .ok (-(n : Int))
      | none => .error (.valueError s)
  | l =>
      match pyNatDigits l with
      | some n => .ok (n : Int)
      | none => .error (.valueError s)

/-- Splits at the first `'.'`: the integer part and, when a dot is present,
everything after it. -/
def splitFrac : List Char → List Char × Option (List Char)
  | [] => ([], none)
  | c :: rest =>
      if c = '.' then ([], some rest)
      else
        let (a, b) := splitFrac rest
        (c :: a, b)

/-- An unsigned decimal literal, with an optional fractional part, as an
exact rational. -/
def pyFloatCore (l : List Char) : Option ℚ :=
  match splitFrac l with
  | (a, none) => (pyNatDigits a).map (fun n => (n : ℚ))
  | (a, some b) =>
      match pyNatDigits a, pyNatDigits b with
      | some n, some f => some ((n : ℚ) + (f : ℚ) / (10 : ℚ) ^ b.length)
      | _, _ => none

/-- Python `float(s)` for plain decimal literals: an optional sign, an
integer part and an optional fractional part; anything else raises
`ValueError`.  The value is embedded as an exact rational. -/
def pyFloat (s : String) : Except PyErr ℚ :=
  match s.data with
  | '-' :: rest =>
      match pyFloatCore rest with
      | some q => .ok (-q)
      | none => .error (.valueError s)
  | l =>
      match pyFloatCore l with
      | some q => .ok q
      | none => .error (.valueError s)

/-- `attrs['key']`: raises `KeyError` when the attribute is absent. -/
def attrsGet : List (String × String) → String → Except PyErr String
  | [], k => .error (.keyError k)
  | (k', v) :: rest, k => if k' == k then .ok v else attrsGet rest k

/-- `readosm.RawOSM`: the two identity-keyed dictionaries.  The values are
kept as `PyVal` because the source stores whatever it pops from its stack;
in every reachable state they are bare `Node`/`Way` instances. -/
structure RawOSM where
  nodes : List (Int × PyVal)
  ways : List (Int × PyVal)
deriving DecidableEq, Repr

/-- The parser's mutable state: the `current_state` stack (head of the list
is the top, i.e. Python's `current_state[-1]`) and the `RawOSM` being
populated. -/
structure PState where
  stack : List PyVal
  raw : RawOSM
deriving DecidableEq, Repr

/-- `Node.__init__(attrs)`: reads and converts `lat` then `lon`, tags start
empty.  (`Except.bind` sequences the fallible steps: an exception in one
propagates past the rest.) -/
def nodeInit (attrs : List (String × String)) : Except PyErr Node :=
  Except.bind (attrsGet attrs "lat") (fun latStr =>
    Except.bind (pyFloat latStr) (fun lat =>
      Except.bind (attrsGet attrs "lon") (fun lonStr =>
        Except.bind (pyFloat lonStr) (fun lon =>
          .ok { coord := (lat, lon), tags := [] }))))

/-- `readosm.read_osm.start_element`.  The `nd` and `tag` branches inspect
the top of the stack with `type(parent) == Way` / `type(parent) in [Node,
Way]`; the stack only ever holds `(identity, entity)` pairs and `None`, so
those branches fall through to `pass` for a pair — the `match` below keeps
the branch bodies exactly where the source has them, reachable only for a
bare `Node`/`Way` on the stack.  `current_state[-1]` on an empty stack
raises `IndexError`. -/
def start_element (st : PState) (name : String) (attrs : List (String × String)) :
    Except PyErr PState :=
  if name == "osm" then .ok st
  else if name == "node" then
    Except.bind (attrsGet attrs "id") (fun idStr =>
      Except.bind (pyInt idStr) (fun i =>
        Except.bind (nodeInit attrs) (fun nd =>
          .ok { st with stack := .tupIdV i (.nodeV nd) :: st.stack })))
  else if name == "way" then
    Except.bind (attrsGet attrs "id") (fun idStr =>
      Except.bind (pyInt idStr) (fun i =>
        .ok { st with stack :=
          (.tupIdV i (.wayV { nodes := [], tags := [] }) :: st.stack) }))
  else if name == "nd" then
    match st.stack with
    | [] => .error .indexError
    | parent :: rest =>
      match parent with
      | .wayV w =>
          Except.bind (attrsGet attrs "ref") (fun refStr =>
            Except.bind (pyInt refStr) (fun r =>
              .ok { st with stack :=
                (PyVal.wayV { w with nodes := w.nodes ++ [r] } :: rest) }))
      | _ => .ok st
  else if name == "tag" then
    match st.stack with
    | [] => .error .indexError
    | parent :: rest =>
      match parent with
      | .nodeV n =>
          Except.bind (attrsGet attrs "k") (fun k =>
            Except.bind (attrsGet attrs "v") (fun v =>
              .ok { st with stack :=
                (PyVal.nodeV { n with tags := strInsert n.tags k v } :: rest) }))
      | .wayV w =>
          Except.bind (attrsGet attrs "k") (fun k =>
            Except.bind (attrsGet attrs "v") (fun v =>
              .ok { st with stack :=
                (PyVal.wayV { w with tags := strInsert w.tags k v } :: rest) }))
      | _ => .ok st
  else if name == "relation" then
    .ok { st with stack := .noneV :: st.stack }
  else if name == "member" then .ok st
  else .error (.valueError ("Unrecognized XML node " ++ name))

/-- `readosm.read_osm.end_element`.  Popping an empty stack raises
`IndexError`; subscripting the popped value with `[0]`/`[1]` raises
`TypeError` unless it is a pair. -/
def end_element (st : PState) (name : String) : Except PyErr PState :=
  if name == "osm" || name == "tag" || name == "member" || name == "nd" then .ok st
  else if name == "node" then
    match st.stack with
    | [] => .error .indexError
    | top :: rest =>
      match top with
      | .tupIdV i v =>
          .ok { stack := rest, raw := { st.raw with nodes := dInsert st.raw.nodes i v } }
      | _ => .error .typeError
  else if name == "way" then
    match st.stack with
    | [] => .error .indexError
    | top :: rest =>
      match top with
      | .tupIdV i v =>
          .ok { stack := rest, raw := { st.raw with ways := dInsert st.raw.ways i v } }
      | _ => .error .typeError
  else if name == "relation" then
    match st.stack with
    | [] => .error .indexError
    | _ :: rest => .ok { st with stack := rest }
  else .error (.valueError ("Unrecognized XML node " ++ name))

/-- One expat callback event: element start (with its attributes) or element
end. -/
inductive Event
  | start (name : String) (attrs : List (String × String))
  | stop (name : String)
deriving DecidableEq, Repr

/-- Dispatch one event to the matching handler. -/
def processEvent (st : PState) : Event → Except PyErr PState
  | .start n a => start_element st n a
  | .stop n => end_element st n

/-- Run the handlers over the event stream; an exception raised in a
handler propagates out of `ParseFile` (and hence of `read_osm`). -/
def runEvents : List Event → PState → Except PyErr PState
  | [], st => .ok st
  | e :: rest, st => Except.bind (processEvent st e) (fun st' => runEvents rest st')

/-- The input to `read_osm`, abstracting the file system and expat:
either the file cannot be opened (`IOError`), or expat reports malformed
markup at a position (`ExpatError`), or the document is well-formed markup
and expat delivers its element events in document order. -/
inductive ParseInput
  | ioFailure (fileName : String)
  | expatFailure (line col : Nat)
  | wellFormed (events : List Event)

/-- The empty initial parser state. -/
def initState : PState := { stack := [], raw := { nodes := [], ways := [] } }

/-- `readosm.read_osm`: converts `IOError` and `ExpatError` to `ValueError`;
exceptions raised inside the handlers propagate unchanged. -/
def read_osm : ParseInput → Except PyErr RawOSM
  | .ioFailure fn =>
      .error (.valueError ("Input file " ++ fn ++ " unable to be opened"))
  | .expatFailure l c =>
      .error (.valueError ("Expat parsing failure at line " ++ toString l ++
        " column " ++ toString c))
  | .wellFormed events =>
      Except.bind (runEvents events initState) (fun st => .ok st.raw)

/-! ## `network.py` -/

/-- `network._NODES_TAGS`: the `highway` tag values that make a raw OSM node
a node of the road network. -/
def _NODES_TAGS : List String :=
  ["traffic_signals", "crossing", "turning_circle", "motorway_junction"]

/-- `network._HIGHWAY_SPEEDS`: travel speed (miles per hour) per highway
kind. -/
def _HIGHWAY_SPEEDS : List (String × ℚ) :=
  [("residential", 20), ("primary", 40), ("primary_link", 40),
   ("secondary", 35), ("tertiary", 30), ("footway", 35), ("service", 35),
   ("motorway", 70)]

/-- Attribute access `v.tags`: `Node` and `Way` instances have a `tags`
slot; tuples and `None` raise `AttributeError`. -/
def getTags : PyVal → Except PyErr Tags
  | .nodeV n => .ok n.tags
  | .wayV w => .ok w.tags
  | _ => .error (.attributeError "tags")

/-- Attribute access `v.coord`: only `Node` instances have a `coord` slot. -/
def getCoord : PyVal → Except PyErr Coord
  | .nodeV n => .ok n.coord
  | _ => .error (.attributeError "coord")

/-- Attribute access `v.nodes`: only `Way` instances have a `nodes` slot. -/
def getWayNodes : PyVal → Except PyErr (List Int)
  | .wayV w => .ok w.nodes
  | _ => .error (.attributeError "nodes")

/-- Attribute access `.coord` on a plain integer: the elements of
`way.nodes` are identity integers, and `int` has no `coord` attribute, so
`way.nodes[0].coord` raises `AttributeError`. -/
def intCoord (_i : Int) : Except PyErr Coord := .error (.attributeError "coord")

/-- `network._test_if_node`: `'highway' in tags and tags['highway'] in
_NODES_TAGS`.  Reading `node.tags` can raise for a value without that
attribute. -/
def _test_if_node (node : PyVal) : Except PyErr Bool :=
  Except.bind (getTags node) (fun tags =>
    .ok (match strLookup tags "highway" with
         | some v => _NODES_TAGS.contains v
         | none => false))

/-- The networkx graph: nodes with an optional `coord` attribute and
undirected edges `(u, v, travel_time, name)`. -/
structure Graph where
  nodes : List (Int × Option Coord)
  edges : List (Int × Int × ℚ × String)
deriving DecidableEq, Repr

/-- `net.add_node(i)`: a no-op when the node already exists. -/
def add_node (net : Graph) (i : Int) : Graph :=
  if net.nodes.any (fun p => p.1 == i) then net
  else { net with nodes := net.nodes ++ [(i, none)] }

/-- `net.node[i]['coord'] = c`: raises `KeyError` when the node is absent. -/
def set_coord (net : Graph) (i : Int) (c : Coord) : Except PyErr Graph :=
  if net.nodes.any (fun p => p.1 == i) then
    .ok { net with
          nodes := net.nodes.map (fun p => if p.1 == i then (p.1, some c) else p) }
  else .error (.keyError (toString i))

/-- Whether the unordered endpoint pairs `{u, v}` and `{a, b}` coincide. -/
def sameEnds (u v a b : Int) : Bool := (u == a && v == b) || (u == b && v == a)

/-- `net.add_edge(u, v, travel_time=tt, name=nm)` on an undirected networkx
graph: missing endpoints are added as attribute-less nodes, and the data of
an existing edge between the same endpoints is overwritten. -/
def add_edge (net : Graph) (u v : Int) (tt : ℚ) (nm : String) : Graph :=
  let net := add_node (add_node net u) v
  if net.edges.any (fun e => sameEnds u v e.1 e.2.1) then
    { net with
      edges := net.edges.map
        (fun e => if sameEnds u v e.1 e.2.1 then (e.1, e.2.1, tt, nm) else e) }
  else { net with edges := net.edges ++ [(u, v, tt, nm)] }

/-- The node-formation loop of `form_network_from_osm`: for every entry of
`raw_osm.nodes`, add it as a graph node when `_test_if_node` holds and set
its `coord` attribute. -/
def addNodesLoop : List (Int × PyVal) → Graph → Except PyErr Graph
  | [], net => .ok net
  | (node_id, node) :: rest, net =>
      Except.bind (_test_if_node node) (fun isN =>
        if isN then
          let net := add_node net node_id
          Except.bind (getCoord node) (fun c =>
            Except.bind (set_coord net node_id c) (fun net' =>
              addNodesLoop rest net'))
        else addNodesLoop rest net)

/-- The inner loop `for node_id in way.nodes` of `form_network_from_osm`:
`nodes[node_id]` raises `KeyError` for a dangling reference; the distance
accumulates through `dist`; at a junction an edge is added when a previous
junction exists, and the cursor and accumulator reset unconditionally.
The speed lookup `_HIGHWAY_SPEEDS[highway]` raises `KeyError` on an unknown
highway kind; the source wraps it in `try/except IndexError`, which does
not catch `KeyError`, so that exception propagates and the handler's
`raise IndexError('Unknown highway type ...')` is dead code. -/
def wayPointsLoop (dist : Coord → Coord → ℚ) (nodesDict : List (Int × PyVal))
    (highway : String) (tags : Tags) :
    List Int → Option Int → Coord → ℚ → Graph → Except PyErr Graph
  | [], _, _, _, net => .ok net
  | node_id :: rest, prev_node_id, prev_coord, distance, net =>
      Except.bind (match dLookup nodesDict node_id with
        | some v => Except.ok v
        | none => Except.error (PyErr.keyError (toString node_id))) (fun node =>
        Except.bind (getCoord node) (fun curr_coord =>
          let distance := distance + dist curr_coord prev_coord
          let prev_coord := curr_coord
          Except.bind (_test_if_node node) (fun isN =>
            if isN then
              match prev_node_id with
              | some prev_id =>
                  Except.bind (match strLookup _HIGHWAY_SPEEDS highway with
                    | some s => Except.ok s
                    | none => Except.error (PyErr.keyError highway)) (fun speed =>
                    let travel_time := distance / speed
                    let net := add_edge net node_id prev_id travel_time
                      ((strLookup tags "name").getD "")
                    wayPointsLoop dist nodesDict highway tags rest (some node_id)
                      prev_coord 0 net)
              | none =>
                  wayPointsLoop dist nodesDict highway tags rest (some node_id)
                    prev_coord 0 net
            else
              wayPointsLoop dist nodesDict highway tags rest prev_node_id
                prev_coord distance net)))

/-- The edge-formation loop of `form_network_from_osm`: a way without a
`highway` tag is skipped; otherwise `prev_coord = way.nodes[0].coord`
raises `IndexError` on an empty reference list and `AttributeError`
otherwise (the list holds integers), before the inner loop runs. -/
def waysLoop (dist : Coord → Coord → ℚ) (nodesDict : List (Int × PyVal)) :
    List (Int × PyVal) → Graph → Except PyErr Graph
  | [], net => .ok net
  | (_, way) :: rest, net =>
      Except.bind (getTags way) (fun tags =>
        match strLookup tags "highway" with
        | none => waysLoop dist nodesDict rest net
        | some highway =>
            Except.bind (getWayNodes way) (fun wayNodes =>
              Except.bind (match wayNodes with
                | [] => Except.error PyErr.indexError
                | first :: _ => Except.ok first) (fun first =>
                Except.bind (intCoord first) (fun prev_coord =>
                  Except.bind (wayPointsLoop dist nodesDict highway tags wayNodes
                      none prev_coord 0 net)
                    (fun net' => waysLoop dist nodesDict rest net')))))

/-- `network.form_network_from_osm`, parametrized by the external geodesic
distance function. -/
def form_network_from_osm (dist : Coord → Coord → ℚ) (raw : RawOSM) :
    Except PyErr Graph :=
  Except.bind (addNodesLoop raw.nodes { nodes := [], edges := [] })
    (fun net => waysLoop dist raw.nodes raw.ways net)

/-! ## Well-formed input documents

Documents of the grammar of §4.1 of the spec: a root container of `point`
(`node`), `path` (`way`) and `relation` elements; `tag` children of points
and paths, `point-ref` (`nd`) children of paths, `member`/`tag` children of
relations.  `docEvents` is the event stream expat delivers for such a
document. -/

/-- A child element of a `node`. -/
inductive PointChild
  | tagC (k v : String)
deriving DecidableEq, Repr

/-- A child element of a `way`. -/
inductive PathChild
  | ndC (ref : String)
  | tagC (k v : String)
deriving DecidableEq, Repr

/-- A child element of a `relation`. -/
inductive RelChild
  | memberC
  | tagC (k v : String)
deriving DecidableEq, Repr

/-- A top-level element of the document, carrying its attribute strings. -/
inductive TopElem
  | pointE (idA latA lonA : String) (children : List PointChild)
  | pathE (idA : String) (children : List PathChild)
  | relationE (children : List RelChild)
deriving DecidableEq, Repr

/-- Events of one `node` child. -/
def pointChildEvents : PointChild → List Event
  | .tagC k v => [.start "tag" [("k", k), ("v", v)], .stop "tag"]

/-- Events of one `way` child. -/
def pathChildEvents : PathChild → List Event
  | .ndC r => [.start "nd" [("ref", r)], .stop "nd"]
  | .tagC k v => [.start "tag" [("k", k), ("v", v)], .stop "tag"]

/-- Events of one `relation` child. -/
def relChildEvents : RelChild → List Event
  | .memberC => [.start "member" [], .stop "member"]
  | .tagC k v => [.start "tag" [("k", k), ("v", v)], .stop "tag"]

/-- Concatenated events of a list of children. -/
def childListEvents {χ : Type} (f : χ → List Event) : List χ → List Event
  | [] => []
  | c :: rest => f c ++ childListEvents f rest

/-- Events of one top-level element. -/
def elemEvents : TopElem → List Event
  | .pointE i la lo cs =>
      .start "node" [("id", i), ("lat", la), ("lon", lo)] ::
        (childListEvents pointChildEvents cs ++ [.stop "node"])
  | .pathE i cs =>
      .start "way" [("id", i)] :: (childListEvents pathChildEvents cs ++ [.stop "way"])
  | .relationE cs =>
      .start "relation" [] :: (childListEvents relChildEvents cs ++ [.stop "relation"])

/-- Concatenated events of a list of top-level elements. -/
def elemListEvents : List TopElem → List Event
  | [] => []
  | e :: rest => elemEvents e ++ elemListEvents rest

/-- The whole document's event stream. -/
def docEvents (doc : List TopElem) : List Event :=
  .start "osm" [] :: (elemListEvents doc ++ [.stop "osm"])

/-- The attribute strings that must convert for the element's handler not to
raise: `id` of points and paths as `int`, `lat`/`lon` of points as `float`.
(The `ref` of a `point-ref` is never converted: the branch that would call
`int(attrs['ref'])` is unreachable, see `start_element`.) -/
def validElem : TopElem → Bool
  | .pointE i la lo _ => (pyInt i).isOk && (pyFloat la).isOk && (pyFloat lo).isOk
  | .pathE i _ => (pyInt i).isOk
  | .relationE _ => true

/-- Every element of the document is valid. -/
def validDoc (doc : List TopElem) : Bool := doc.all validElem

/-- The integer a valid attribute string converts to. -/
def pyIntD (s : String) : Int :=
  match pyInt s with
  | .ok n => n
  | .error _ => 0

/-- The rational a valid attribute string converts to. -/
def pyFloatD (s : String) : ℚ :=
  match pyFloat s with
  | .ok q => q
  | .error _ => 0

/-- The store entry the parser commits for one element: a `Node` with empty
tags for a point (its `tag` children are dropped by the stack-top type
check), a `Way` with empty reference list and empty tags for a path, and
nothing for a relation. -/
def elemCommit : TopElem → RawOSM → RawOSM
  | .pointE i la lo _, raw =>
      { raw with nodes :=
          (dInsert raw.nodes (pyIntD i)
            (.nodeV { coord := (pyFloatD la, pyFloatD lo), tags := [] })) }
  | .pathE i _, raw =>
      { raw with ways := dInsert raw.ways (pyIntD i) (.wayV { nodes := [], tags := [] }) }
  | .relationE _, raw => raw

/-- Folding the commits of a document over a store. -/
def docCommit : List TopElem → RawOSM → RawOSM
  | [], raw => raw
  | e :: rest, raw => docCommit rest (elemCommit e raw)

/-- The store a valid document parses to. -/
def storeOf (doc : List TopElem) : RawOSM := docCommit doc { nodes := [], ways := [] }

/-- The node-store commit of one element, when it makes one. -/
def nodeEntry : TopElem → Option (Int × PyVal)
  | .pointE i la lo _ =>
      some (pyIntD i, .nodeV { coord := (pyFloatD la, pyFloatD lo), tags := [] })
  | _ => none

/-- All node-store commits of a document, in document order. -/
def nodeCommits (doc : List TopElem) : List (Int × PyVal) := doc.filterMap nodeEntry

/-- The way-store commit of one element, when it makes one. -/
def wayEntry : TopElem → Option (Int × PyVal)
  | .pathE i _ => some (pyIntD i, .wayV { nodes := [], tags := [] })
  | _ => none

/-- All way-store commits of a document, in document order. -/
def wayCommits (doc : List TopElem) : List (Int × PyVal) := doc.filterMap wayEntry

/-- The stack top is one of the values the parser actually pushes (an
`(identity, entity)` pair or the relation sentinel `None`): `nd` and `tag`
events leave the state unchanged over such a top. -/
def InertStack (stack : List PyVal) : Prop :=
  (∃ i v rest, stack = PyVal.tupIdV i v :: rest) ∨ ∃ rest, stack = PyVal.noneV :: rest

/-! ## Predicates for the claims about the reducer -/

/-- A store entry holding a `Way` whose tags contain the `highway` key:
the reducer tries to walk it (and, as proved below, raises). -/
def roadWay (p : Int × PyVal) : Bool :=
  match p.2 with
  | .wayV w => (strLookup w.tags "highway").isSome
  | _ => false

/-- A road way whose point sequence is empty. -/
def emptyRoadWay (p : Int × PyVal) : Bool :=
  match p.2 with
  | .wayV w => (strLookup w.tags "highway").isSome && w.nodes.isEmpty
  | _ => false

/-- A road way whose point sequence references an identity absent from the
node store (a Dangling Reference). -/
def roadWayWithDangling (nodesDict : List (Int × PyVal)) (p : Int × PyVal) : Bool :=
  match p.2 with
  | .wayV w =>
      (strLookup w.tags "highway").isSome &&
        w.nodes.any (fun r => (dLookup nodesDict r).isNone)
  | _ => false

/-- Identity `i` is witnessed as a junction by the node store: some entry
keyed `i` passes `_test_if_node` (its tags map `highway` to a member of
`_NODES_TAGS`). -/
def junctionWitnessed (nodesDict : List (Int × PyVal)) (i : Int) : Bool :=
  nodesDict.any (fun q => q.1 == i && decide (_test_if_node q.2 = .ok true))

/-- A graph edge whose endpoints are distinct, are graph nodes, and are both
witnessed as junctions by the node store. -/
def edgeEndsOk (nodesDict : List (Int × PyVal)) (g : Graph)
    (e : Int × Int × ℚ × String) : Bool :=
  decide (e.1 ≠ e.2.1) && g.nodes.any (fun p => p.1 == e.1) &&
    g.nodes.any (fun p => p.1 == e.2.1) &&
    junctionWitnessed nodesDict e.1 && junctionWitnessed nodesDict e.2.1

/-! ## Concrete inputs used by the claims -/

/-- A concrete stand-in for the external geodesic distance function. -/
def distExample : Coord → Coord → ℚ := fun _ _ => 1 / 10

/-- A document whose one path has one `point-ref` child (claim C1). -/
def docC1 : List TopElem := [.pathE "11" [.ndC "22"]]

/-- A document whose one point has one `tag` child (claim C2). -/
def docC2 : List TopElem := [.pointE "5" "1" "2" [.tagC "amenity" "pub"]]

/-- The concrete scenario of claim C3: three points 0.1 mile apart, P1 and
P3 junction-tagged, and the path P1-P2-P3 tagged
`highway=residential`, `name=Elm St`. -/
def docC3 : List TopElem :=
  [.pointE "1" "0" "0" [.tagC "highway" "crossing"],
   .pointE "2" "0.1" "0" [],
   .pointE "3" "0.2" "0" [.tagC "highway" "traffic_signals"],
   .pathE "10" [.ndC "1", .ndC "2", .ndC "3",
     .tagC "highway" "residential", .tagC "name" "Elm St"]]

/-- A store whose one road path references the absent point 5 (claim C4). -/
def storeC4 : RawOSM :=
  { nodes := [],
    ways := [(1, .wayV { nodes := [5], tags := [("highway", "residential")] })] }

/-- A store with two junction points and a road path of an unknown highway
kind (claim C5). -/
def storeC5 : RawOSM :=
  { nodes := [(1, .nodeV { coord := (0, 0), tags := [("highway", "crossing")] }),
              (2, .nodeV { coord := (1, 1), tags := [("highway", "crossing")] })],
    ways := [(9, .wayV { nodes := [1, 2], tags := [("highway", "superhighway")] })] }

/-- A store with one junction point and one plain point (claim C6). -/
def storeC6 : RawOSM :=
  { nodes := [(1, .nodeV { coord := (0, 0), tags := [("highway", "crossing")] }),
              (2, .nodeV { coord := (1, 1), tags := [] })],
    ways := [] }

/-- The graph the reducer returns on `storeC6`. -/
def graphC6 : Graph := { nodes := [(1, some (0, 0))], edges := [] }

/-- A store with one junction point and one non-road way (claim C7). -/
def storeC7 : RawOSM :=
  { nodes := [(4, .nodeV { coord := (1, 2), tags := [("highway", "turning_circle")] })],
    ways := [(8, .wayV { nodes := [], tags := [("landuse", "park")] })] }

/-- The graph the reducer returns on `storeC7`. -/
def graphC7 : Graph := { nodes := [(4, some (1, 2))], edges := [] }

/-- A store whose one road path has an empty point sequence (claim C9). -/
def storeC9 : RawOSM :=
  { nodes := [],
    ways := [(3, .wayV { nodes := [], tags := [("highway", "residential")] })] }

/-- A document with two point elements sharing the id `7` and two path
elements sharing the id `9` (claim C10). -/
def docC10 : List TopElem :=
  [.pointE "7" "1" "2" [], .pathE "9" [.ndC "7"],
   .pointE "7" "3" "4" [], .pathE "9" [.tagC "highway" "residential"]]

/-! ## Basic lemmas -/

theorem except_isOk_iff {α : Type} (x : Except PyErr α) :
    x.isOk = true ↔ ∃ a, x = .ok a := by
  cases x <;> simp [Except.isOk, Except.toBool]

theorem ok_bind {α β : Type} (a : α) (f : α → Except PyErr β) :
    Except.bind (.ok a) f = f a := rfl

theorem error_bind {α β : Type} (e : PyErr) (f : α → Except PyErr β) :
    Except.bind (.error e) f = .error e := rfl

theorem runEvents_append (a b : List Event) (st : PState) :
    runEvents (a ++ b) st = (runEvents a st).bind (fun st' => runEvents b st') := by
  induction a generalizing st with
  | nil => rfl
  | cons e rest ih =>
      show runEvents (e :: (rest ++ b)) st = _
      cases h : processEvent st e with
      | ok st' =>
          simp only [runEvents]
          rw [h]
          exact ih st'
      | error er =>
          simp only [runEvents]
          rw [h]
          rfl

/-! ## The parser drops `nd` and `tag` children

The stack only ever carries `(identity, entity)` pairs and the relation
sentinel `None`; the `type(parent) == Way` / `type(parent) in [Node, Way]`
checks in `start_element` therefore never fire, and every child event of a
well-formed document leaves the parser state unchanged. -/

theorem start_tag_inert (st : PState) (attrs : List (String × String))
    (h : InertStack st.stack) : start_element st "tag" attrs = .ok st := by
  obtain ⟨stack, raw⟩ := st
  obtain ⟨i, v, rest, hs⟩ | ⟨rest, hs⟩ := h <;> simp only at hs <;> subst hs <;> rfl

theorem start_nd_inert (st : PState) (attrs : List (String × String))
    (h : InertStack st.stack) : start_element st "nd" attrs = .ok st := by
  obtain ⟨stack, raw⟩ := st
  obtain ⟨i, v, rest, hs⟩ | ⟨rest, hs⟩ := h <;> simp only at hs <;> subst hs <;> rfl

theorem runEvents_pointChildren (cs : List PointChild) (st : PState)
    (h : InertStack st.stack) :
    runEvents (childListEvents pointChildEvents cs) st = .ok st := by
  induction cs with
  | nil => rfl
  | cons c rest ih =>
      cases c with
      | tagC k v =>
          show runEvents ([Event.start "tag" [("k", k), ("v", v)], Event.stop "tag"]
            ++ childListEvents pointChildEvents rest) st = .ok st
          rw [runEvents_append]
          have h1 : runEvents [Event.start "tag" [("k", k), ("v", v)],
              Event.stop "tag"] st = .ok st := by
            simp only [runEvents, processEvent]
            rw [start_tag_inert st _ h]
            rfl
          rw [h1]
          exact ih

theorem runEvents_pathChildren (cs : List PathChild) (st : PState)
    (h : InertStack st.stack) :
    runEvents (childListEvents pathChildEvents cs) st = .ok st := by
  induction cs with
  | nil => rfl
  | cons c rest ih =>
      cases c with
      | ndC r =>
          show runEvents ([Event.start "nd" [("ref", r)], Event.stop "nd"]
            ++ childListEvents pathChildEvents rest) st = .ok st
          rw [runEvents_append]
          have h1 : runEvents [Event.start "nd" [("ref", r)], Event.stop "nd"] st
              = .ok st := by
            simp only [runEvents, processEvent]
            rw [start_nd_inert st _ h]
            rfl
          rw [h1]
          exact ih
      | tagC k v =>
          show runEvents ([Event.start "tag" [("k", k), ("v", v)], Event.stop "tag"]
            ++ childListEvents pathChildEvents rest) st = .ok st
          rw [runEvents_append]
          have h1 : runEvents [Event.start "tag" [("k", k), ("v", v)],
              Event.stop "tag"] st = .ok st := by
            simp only [runEvents, processEvent]
            rw [start_tag_inert st _ h]
            rfl
          rw [h1]
          exact ih

theorem runEvents_relChildren (cs : List RelChild) (st : PState)
    (h : InertStack st.stack) :
    runEvents (childListEvents relChildEvents cs) st = .ok st := by
  induction cs with
  | nil => rfl
  | cons c rest ih =>
      cases c with
      | memberC =>
          show runEvents ([Event.start "member" [], Event.stop "member"]
            ++ childListEvents relChildEvents rest) st = .ok st
          rw [runEvents_append]
          have h1 : runEvents [Event.start "member" [], Event.stop "member"] st
              = .ok st := rfl
          rw [h1]
          exact ih
      | tagC k v =>
          show runEvents ([Event.start "tag" [("k", k), ("v", v)], Event.stop "tag"]
            ++ childListEvents relChildEvents rest) st = .ok st
          rw [runEvents_append]
          have h1 : runEvents [Event.start "tag" [("k", k), ("v", v)],
              Event.stop "tag"] st = .ok st := by
            simp only [runEvents, processEvent]
            rw [start_tag_inert st _ h]
            rfl
          rw [h1]
          exact ih

/-! ## Parsing a well-formed document succeeds and commits `storeOf` -/

theorem runEvents_elem (el : TopElem) (st : PState) (h : validElem el = true) :
    runEvents (elemEvents el) st = .ok ⟨st.stack, elemCommit el st.raw⟩ := by
  cases el with
  | pointE i la lo cs =>
      simp only [validElem, Bool.and_eq_true, except_isOk_iff] at h
      obtain ⟨⟨⟨n, hn⟩, ⟨qla, hla⟩⟩, ⟨qlo, hlo⟩⟩ := h
      have hni : nodeInit [("id", i), ("lat", la), ("lon", lo)] =
          .ok { coord := (qla, qlo), tags := [] } := by
        have s : nodeInit [("id", i), ("lat", la), ("lon", lo)] =
            Except.bind (pyFloat la) (fun lat =>
              Except.bind (pyFloat lo) (fun lon =>
                .ok { coord := (lat, lon), tags := [] })) := rfl
        rw [s, hla, ok_bind, hlo, ok_bind]
      have hstart : processEvent st
          (Event.start "node" [("id", i), ("lat", la), ("lon", lo)]) =
          .ok { st with stack :=
            PyVal.tupIdV n (PyVal.nodeV { coord := (qla, qlo), tags := [] })
              :: st.stack } := by
        have s : processEvent st
            (Event.start "node" [("id", i), ("lat", la), ("lon", lo)]) =
            Except.bind (pyInt i) (fun n' =>
              Except.bind (nodeInit [("id", i), ("lat", la), ("lon", lo)]) (fun nd =>
                .ok { st with stack :=
                  (PyVal.tupIdV n' (PyVal.nodeV nd) :: st.stack) })) := rfl
        rw [s, hn, ok_bind, hni, ok_bind]
      show runEvents (Event.start "node" [("id", i), ("lat", la), ("lon", lo)] ::
        (childListEvents pointChildEvents cs ++ [Event.stop "node"])) st = _
      simp only [runEvents]
      rw [hstart]
      show runEvents (childListEvents pointChildEvents cs ++ [Event.stop "node"]) _ = _
      rw [runEvents_append,
        runEvents_pointChildren cs _ (Or.inl ⟨n, _, st.stack, rfl⟩)]
      show Except.ok _ = _
      simp only [elemCommit, pyIntD, pyFloatD, hn, hla, hlo]
  | pathE i cs =>
      simp only [validElem, except_isOk_iff] at h
      obtain ⟨n, hn⟩ := h
      have hstart : processEvent st (Event.start "way" [("id", i)]) =
          .ok { st with stack :=
            PyVal.tupIdV n (PyVal.wayV { nodes := [], tags := [] }) :: st.stack } := by
        have s : processEvent st (Event.start "way" [("id", i)]) =
            Except.bind (pyInt i) (fun n' =>
              .ok { st with stack :=
                (PyVal.tupIdV n' (PyVal.wayV { nodes := [], tags := [] })
                  :: st.stack) }) := rfl
        rw [s, hn, ok_bind]
      show runEvents (Event.start "way" [("id", i)] ::
        (childListEvents pathChildEvents cs ++ [Event.stop "way"])) st = _
      simp only [runEvents]
      rw [hstart]
      show runEvents (childListEvents pathChildEvents cs ++ [Event.stop "way"]) _ = _
      rw [runEvents_append,
        runEvents_pathChildren cs _ (Or.inl ⟨n, _, st.stack, rfl⟩)]
      show Except.ok _ = _
      simp only [elemCommit, pyIntD, hn]
  | relationE cs =>
      show runEvents (Event.start "relation" [] ::
        (childListEvents relChildEvents cs ++ [Event.stop "relation"])) st = _
      simp only [runEvents]
      show runEvents (childListEvents relChildEvents cs ++ [Event.stop "relation"]) _ = _
      rw [runEvents_append,
        runEvents_relChildren cs _ (Or.inr ⟨st.stack, rfl⟩)]
      rfl

theorem runEvents_elemList (doc : List TopElem) (st : PState)
    (h : validDoc doc = true) :
    runEvents (elemListEvents doc) st = .ok ⟨st.stack, docCommit doc st.raw⟩ := by
  induction doc generalizing st with
  | nil => rfl
  | cons el rest ih =>
      simp only [validDoc, List.all_cons, Bool.and_eq_true] at h
      obtain ⟨h1, h2⟩ := h
      show runEvents (elemEvents el ++ elemListEvents rest) st = _
      rw [runEvents_append, runEvents_elem el st h1]
      exact ih ⟨st.stack, elemCommit el st.raw⟩ h2

/-- Parsing the event stream of a valid document of the §4.1 grammar
succeeds and returns exactly `storeOf`: every point becomes a `Node` with
an empty tag dictionary and every path a `Way` with empty reference list
and empty tag dictionary, later elements overwriting earlier ones of the
same identity. -/
theorem read_osm_wellFormed (doc : List TopElem) (h : validDoc doc = true) :
    read_osm (.wellFormed (docEvents doc)) = .ok (storeOf doc) := by
  have hrun : runEvents (docEvents doc) initState =
      .ok ⟨[], storeOf doc⟩ := by
    show runEvents (Event.start "osm" [] ::
      (elemListEvents doc ++ [Event.stop "osm"])) initState = _
    simp only [runEvents]
    show runEvents (elemListEvents doc ++ [Event.stop "osm"]) initState = _
    rw [runEvents_append, runEvents_elemList doc initState h]
    rfl
  show Except.bind (runEvents (docEvents doc) initState) _ = _
  rw [hrun]
  rfl

/-! ## Dictionary semantics: last write wins -/

theorem dLookup_dInsert {α : Type} (d : List (Int × α)) (k : Int) (v : α) (i : Int) :
    dLookup (dInsert d k v) i = if k == i then some v else dLookup d i := by
  induction d with
  | nil => rfl
  | cons p rest ih =>
      obtain ⟨k', v'⟩ := p
      by_cases hk : k' = k
      · subst hk
        by_cases hi : k' = i
        · subst hi
          simp [dInsert, dLookup]
        · simp [dInsert, dLookup, hi]
      · by_cases hi : k' = i
        · subst hi
          simp [dInsert, dLookup, hk, Ne.symm hk, ih]
        · simp [dInsert, dLookup, hk, hi, ih]

theorem dLookup_foldl {α : Type} (commits : List (Int × α)) (d : List (Int × α))
    (i : Int) :
    dLookup (commits.foldl (fun acc p => dInsert acc p.1 p.2) d) i =
      match commits.reverse.find? (fun p => p.1 == i) with
      | some p => some p.2
      | none => dLookup d i := by
  induction commits generalizing d with
  | nil => rfl
  | cons c rest ih =>
      rw [List.foldl_cons, ih, List.reverse_cons, List.find?_append]
      cases hf : rest.reverse.find? (fun p => p.1 == i) with
      | some p => simp [hf]
      | none =>
          rw [dLookup_dInsert]
          by_cases hc : c.1 = i
          · have hcb : (c.1 == i) = true := beq_iff_eq.mpr hc
            simp [List.find?, hc, hcb]
          · have hcb : (c.1 == i) = false := beq_eq_false_iff_ne.mpr hc
            simp [List.find?, hc, hcb]

theorem docCommit_nodes (doc : List TopElem) (raw : RawOSM) :
    (docCommit doc raw).nodes =
      (nodeCommits doc).foldl (fun d p => dInsert d p.1 p.2) raw.nodes := by
  induction doc generalizing raw with
  | nil => rfl
  | cons el rest ih =>
      cases el with
      | pointE i la lo cs =>
          simp only [docCommit, nodeCommits, List.filterMap_cons]
          rw [ih]
          rfl
      | pathE i cs =>
          simp only [docCommit, nodeCommits, List.filterMap_cons]
          rw [ih]
          rfl
      | relationE cs =>
          simp only [docCommit, nodeCommits, List.filterMap_cons]
          rw [ih]
          rfl

theorem docCommit_ways (doc : List TopElem) (raw : RawOSM) :
    (docCommit doc raw).ways =
      (wayCommits doc).foldl (fun d p => dInsert d p.1 p.2) raw.ways := by
  induction doc generalizing raw with
  | nil => rfl
  | cons el rest ih =>
      cases el with
      | pointE i la lo cs =>
          simp only [docCommit, wayCommits, List.filterMap_cons]
          rw [ih]
          rfl
      | pathE i cs =>
          simp only [docCommit, wayCommits, List.filterMap_cons]
          rw [ih]
          rfl
      | relationE cs =>
          simp only [docCommit, wayCommits, List.filterMap_cons]
          rw [ih]
          rfl

/-- C10: for every valid document, the parse succeeds (duplicate
identities are not an error) and each of the two store dictionaries maps
an identity to exactly the entity committed for the last point element
(respectively the last path element) of that identity in document order;
entities committed earlier under the same identity are discarded. -/
theorem C10_duplicate_id_last_wins (doc : List TopElem)
    (hv : validDoc doc = true) :
    read_osm (.wellFormed (docEvents doc)) = .ok (storeOf doc) ∧
    (∀ i : Int, dLookup (storeOf doc).nodes i =
      ((nodeCommits doc).reverse.find? (fun r => r.1 == i)).map Prod.snd) ∧
    (∀ j : Int, dLookup (storeOf doc).ways j =
      ((wayCommits doc).reverse.find? (fun r => r.1 == j)).map Prod.snd) := by
  refine ⟨read_osm_wellFormed doc hv, ?_, ?_⟩
  · intro i
    have hn : (storeOf doc).nodes =
        (nodeCommits doc).foldl (fun d q => dInsert d q.1 q.2) [] :=
      docCommit_nodes doc { nodes := [], ways := [] }
    rw [hn, dLookup_foldl]
    cases hf : (nodeCommits doc).reverse.find? (fun r => r.1 == i) with
    | some p => rfl
    | none => rfl
  · intro j
    have hw : (storeOf doc).ways =
        (wayCommits doc).foldl (fun d q => dInsert d q.1 q.2) [] :=
      docCommit_ways doc { nodes := [], ways := [] }
    rw [hw, dLookup_foldl]
    cases hf : (wayCommits doc).reverse.find? (fun r => r.1 == j) with
    | some p => rfl
    | none => rfl

/-- C10 witness: the document `docC10` holds two point elements with
identity 7 and two path elements with identity 9; the parse succeeds, the
node store keeps the later point (with coordinate `(3, 4)`) and the way
store keeps the entity committed for the later path. -/
theorem C10_duplicate_id_last_wins_witness :
    read_osm (.wellFormed (docEvents docC10)) = .ok (storeOf docC10) ∧
    dLookup (storeOf docC10).nodes 7 =
      some (PyVal.nodeV { coord := (3, 4), tags := [] }) ∧
    dLookup (storeOf docC10).ways 9 =
      some (PyVal.wayV { nodes := [], tags := [] }) := by
  obtain ⟨h1, h2, h3⟩ := C10_duplicate_id_last_wins docC10 rfl
  refine ⟨h1, ?_, ?_⟩
  · rw [h2 7]
    rfl
  · rw [h3 9]
    rfl

/-! ## Reducer lemmas -/

theorem waysLoop_cons (dist : Coord → Coord → ℚ) (nd : List (Int × PyVal))
    (i : Int) (v : PyVal) (rest : List (Int × PyVal)) (net : Graph) :
    waysLoop dist nd ((i, v) :: rest) net =
      Except.bind (getTags v) (fun tags =>
        match strLookup tags "highway" with
        | none => waysLoop dist nd rest net
        | some highway =>
            Except.bind (getWayNodes v) (fun wayNodes =>
              Except.bind (match wayNodes with
                | [] => Except.error PyErr.indexError
                | a :: _ => Except.ok a) (fun first =>
                Except.bind (intCoord first) (fun pc =>
                  Except.bind
                    (wayPointsLoop dist nd highway tags wayNodes none pc 0 net)
                    (fun net' => waysLoop dist nd rest net'))))) := rfl

/-- Processing any store entry that holds a road `Way` (its tags contain
`highway`) raises before its inner loop even starts: `IndexError` on an
empty reference list, `AttributeError` otherwise. -/
theorem waysLoop_road_error (dist : Coord → Coord → ℚ) (nd : List (Int × PyVal))
    (i : Int) (w : Way) (rest : List (Int × PyVal)) (net : Graph)
    (hhw : (strLookup w.tags "highway").isSome = true) :
    ∃ e, waysLoop dist nd ((i, PyVal.wayV w) :: rest) net = .error e := by
  obtain ⟨hw, hh⟩ : ∃ hwv, strLookup w.tags "highway" = some hwv := by
    cases hs : strLookup w.tags "highway" with
    | none => rw [hs] at hhw; simp at hhw
    | some hwv => exact ⟨hwv, rfl⟩
  rw [waysLoop_cons]
  simp only [getTags, ok_bind]
  rw [hh]
  simp only [getWayNodes, ok_bind]
  cases hn : w.nodes with
  | nil => exact ⟨PyErr.indexError, rfl⟩
  | cons a t => exact ⟨PyErr.attributeError "coord", rfl⟩

theorem waysLoop_not_ok (dist : Coord → Coord → ℚ) (nd : List (Int × PyVal))
    (ways : List (Int × PyVal)) (net : Graph)
    (h : ways.any roadWay = true) :
    (waysLoop dist nd ways net).isOk = false := by
  induction ways generalizing net with
  | nil => simp at h
  | cons p rest ih =>
      obtain ⟨i, v⟩ := p
      cases v with
      | wayV w =>
          cases hs : strLookup w.tags "highway" with
          | some hw =>
              obtain ⟨e, he⟩ := waysLoop_road_error dist nd i w rest net
                (by rw [hs]; rfl)
              rw [he]
              rfl
          | none =>
              have hskip : waysLoop dist nd ((i, PyVal.wayV w) :: rest) net =
                  waysLoop dist nd rest net := by
                rw [waysLoop_cons]
                simp only [getTags, ok_bind]
                rw [hs]
              rw [hskip]
              apply ih
              simp only [List.any_cons, Bool.or_eq_true] at h
              rcases h with h | h
              · exfalso
                simp [roadWay, hs] at h
              · exact h
      | nodeV n =>
          cases hs : strLookup n.tags "highway" with
          | some hw =>
              have herr : waysLoop dist nd ((i, PyVal.nodeV n) :: rest) net =
                  .error (.attributeError "nodes") := by
                rw [waysLoop_cons]
                simp only [getTags, ok_bind]
                rw [hs]
                rfl
              rw [herr]
              rfl
          | none =>
              have hskip : waysLoop dist nd ((i, PyVal.nodeV n) :: rest) net =
                  waysLoop dist nd rest net := by
                rw [waysLoop_cons]
                simp only [getTags, ok_bind]
                rw [hs]
              rw [hskip]
              apply ih
              simp only [List.any_cons, Bool.or_eq_true] at h
              rcases h with h | h
              · exfalso
                simp [roadWay] at h
              · exact h
      | noneV =>
          have herr : waysLoop dist nd ((i, PyVal.noneV) :: rest) net =
              .error (.attributeError "tags") := by
            rw [waysLoop_cons]
            rfl
          rw [herr]
          rfl
      | tupIdV a b =>
          have herr : waysLoop dist nd ((i, PyVal.tupIdV a b) :: rest) net =
              .error (.attributeError "tags") := by
            rw [waysLoop_cons]
            rfl
          rw [herr]
          rfl

/-- When the edge-formation loop returns at all, it returns its input graph
unchanged: every road way raises, every other way is skipped. -/
theorem waysLoop_ok_eq (dist : Coord → Coord → ℚ) (nd : List (Int × PyVal))
    (ways : List (Int × PyVal)) (net g : Graph)
    (h : waysLoop dist nd ways net = .ok g) : g = net := by
  induction ways generalizing net with
  | nil =>
      have : Except.ok (ε := PyErr) net = .ok g := h
      injection this with this
      exact this.symm
  | cons p rest ih =>
      obtain ⟨i, v⟩ := p
      rw [waysLoop_cons] at h
      cases v with
      | nodeV n =>
          simp only [getTags, ok_bind] at h
          cases hs : strLookup n.tags "highway" with
          | none => rw [hs] at h; exact ih net h
          | some hw => rw [hs] at h; simp only [getWayNodes, error_bind] at h; simp at h
      | wayV w =>
          simp only [getTags, ok_bind] at h
          cases hs : strLookup w.tags "highway" with
          | none => rw [hs] at h; exact ih net h
          | some hw =>
              rw [hs] at h
              simp only [getWayNodes, ok_bind] at h
              cases hn : w.nodes with
              | nil => rw [hn] at h; simp only [error_bind] at h; simp at h
              | cons a t =>
                  rw [hn] at h
                  simp only [ok_bind, intCoord, error_bind] at h
                  simp at h
      | noneV => simp only [getTags, error_bind] at h; simp at h
      | tupIdV a b => simp only [getTags, error_bind] at h; simp at h

theorem addNodesLoop_cons (i : Int) (v : PyVal) (rest : List (Int × PyVal))
    (net : Graph) :
    addNodesLoop ((i, v) :: rest) net =
      Except.bind (_test_if_node v) (fun isN =>
        if isN then
          Except.bind (getCoord v) (fun c =>
            Except.bind (set_coord (add_node net i) i c) (fun net' =>
              addNodesLoop rest net'))
        else addNodesLoop rest net) := rfl

theorem add_node_edges (net : Graph) (i : Int) :
    (add_node net i).edges = net.edges := by
  unfold add_node
  split <;> rfl

theorem add_node_ids (net : Graph) (i : Int) (x : Int)
    (hx : x ∈ (add_node net i).nodes.map Prod.fst) :
    x ∈ net.nodes.map Prod.fst ∨ x = i := by
  unfold add_node at hx
  split at hx
  · exact Or.inl hx
  · rw [List.map_append] at hx
    rcases List.mem_append.mp hx with h | h
    · exact Or.inl h
    · simp at h
      exact Or.inr h

theorem set_coord_ok_edges (net : Graph) (i : Int) (c : Coord) (net' : Graph)
    (h : set_coord net i c = .ok net') : net'.edges = net.edges := by
  unfold set_coord at h
  split at h
  · injection h with h
    rw [← h]
  · simp at h

theorem set_coord_ok_ids (net : Graph) (i : Int) (c : Coord) (net' : Graph)
    (h : set_coord net i c = .ok net') :
    net'.nodes.map Prod.fst = net.nodes.map Prod.fst := by
  unfold set_coord at h
  split at h
  · injection h with h
    rw [← h]
    simp only [List.map_map]
    apply List.map_congr_left
    intro p _
    simp only [Function.comp_apply]
    split <;> rfl
  · simp at h

theorem addNodesLoop_edges (entries : List (Int × PyVal)) (net g : Graph)
    (h : addNodesLoop entries net = .ok g) : g.edges = net.edges := by
  induction entries generalizing net with
  | nil =>
      have h' : Except.ok (ε := PyErr) net = .ok g := h
      injection h' with h'
      rw [← h']
  | cons p rest ih =>
      obtain ⟨i, v⟩ := p
      rw [addNodesLoop_cons] at h
      cases ht : _test_if_node v with
      | error e => rw [ht, error_bind] at h; simp at h
      | ok b =>
          rw [ht, ok_bind] at h
          cases b with
          | false => exact ih net h
          | true =>
              simp only [if_true] at h
              cases hc : getCoord v with
              | error e => rw [hc, error_bind] at h; simp at h
              | ok c =>
                  rw [hc, ok_bind] at h
                  cases hsc : set_coord (add_node net i) i c with
                  | error e => rw [hsc, error_bind] at h; simp at h
                  | ok net' =>
                      rw [hsc, ok_bind] at h
                      rw [ih net' h, set_coord_ok_edges _ _ _ _ hsc,
                        add_node_edges]

theorem addNodesLoop_junction (dict : List (Int × PyVal))
    (entries : List (Int × PyVal)) (net g : Graph)
    (hsub : ∀ p ∈ entries, p ∈ dict)
    (h : addNodesLoop entries net = .ok g)
    (hnet : ∀ x ∈ net.nodes.map Prod.fst, junctionWitnessed dict x = true) :
    ∀ x ∈ g.nodes.map Prod.fst, junctionWitnessed dict x = true := by
  induction entries generalizing net with
  | nil =>
      have h' : Except.ok (ε := PyErr) net = .ok g := h
      injection h' with h'
      rw [← h']
      exact hnet
  | cons p rest ih =>
      obtain ⟨i, v⟩ := p
      rw [addNodesLoop_cons] at h
      cases ht : _test_if_node v with
      | error e => rw [ht, error_bind] at h; simp at h
      | ok b =>
          rw [ht, ok_bind] at h
          cases b with
          | false => exact ih net (fun q hq => hsub q (List.mem_cons_of_mem _ hq)) h hnet
          | true =>
              simp only [if_true] at h
              cases hc : getCoord v with
              | error e => rw [hc, error_bind] at h; simp at h
              | ok c =>
                  rw [hc, ok_bind] at h
                  cases hsc : set_coord (add_node net i) i c with
                  | error e => rw [hsc, error_bind] at h; simp at h
                  | ok net' =>
                      rw [hsc, ok_bind] at h
                      refine ih net' (fun q hq => hsub q (List.mem_cons_of_mem _ hq)) h ?_
                      intro x hx
                      rw [set_coord_ok_ids _ _ _ _ hsc] at hx
                      rcases add_node_ids net i x hx with hmem | heq
                      · exact hnet x hmem
                      · subst heq
                        apply List.any_eq_true.mpr
                        refine ⟨(x, v), hsub (x, v) (List.mem_cons_self _ _), ?_⟩
                        simp [ht]

/-! ## The claims about the reducer -/

/-- C6: whenever the reducer returns a graph, every node of that graph is
the identity of a store entry that passes `_test_if_node` (its tag map
takes `highway` to a member of the junction set `_NODES_TAGS`); no other
identity ever appears as a graph node. -/
theorem C6_nodes_are_junctions (dist : Coord → Coord → ℚ) (raw : RawOSM)
    (g : Graph) (h : form_network_from_osm dist raw = .ok g) :
    g.nodes.all (fun p => junctionWitnessed raw.nodes p.1) = true := by
  unfold form_network_from_osm at h
  cases ha : addNodesLoop raw.nodes { nodes := [], edges := [] } with
  | error e => rw [ha, error_bind] at h; simp at h
  | ok g1 =>
      rw [ha, ok_bind] at h
      have hg : g = g1 := waysLoop_ok_eq _ _ _ _ _ h
      subst hg
      have hinv := addNodesLoop_junction raw.nodes raw.nodes
        { nodes := [], edges := [] } g (fun p hp => hp) ha (by simp)
      rw [List.all_eq_true]
      intro p hp
      exact hinv p.1 (List.mem_map.mpr ⟨p, hp, rfl⟩)

/-- C6 witness: on the store `storeC6` (point 1 a junction, point 2 not)
the reducer returns `graphC6` and all its nodes are witnessed junctions. -/
theorem C6_nodes_are_junctions_witness :
    graphC6.nodes.all (fun p => junctionWitnessed storeC6.nodes p.1) = true :=
  C6_nodes_are_junctions distExample storeC6 graphC6 rfl

/-- C7: whenever the reducer returns a graph, every edge of that graph has
distinct endpoints that are graph nodes witnessed as junctions; no
self-loop edge is produced.  (In fact a returned graph never has any edge:
every road way raises before emitting one.) -/
theorem C7_edges_distinct_junctions (dist : Coord → Coord → ℚ) (raw : RawOSM)
    (g : Graph) (h : form_network_from_osm dist raw = .ok g) :
    g.edges.all (edgeEndsOk raw.nodes g) = true := by
  unfold form_network_from_osm at h
  cases ha : addNodesLoop raw.nodes { nodes := [], edges := [] } with
  | error e => rw [ha, error_bind] at h; simp at h
  | ok g1 =>
      rw [ha, ok_bind] at h
      have hg : g = g1 := waysLoop_ok_eq _ _ _ _ _ h
      subst hg
      have he : g.edges = [] := addNodesLoop_edges raw.nodes _ g ha
      rw [he]
      rfl

/-- C7 witness: on the store `storeC7` (one junction point, one non-road
way) the reducer returns `graphC7`, whose edges all satisfy the claimed
invariant (there are none). -/
theorem C7_edges_distinct_junctions_witness :
    graphC7.edges.all (edgeEndsOk storeC7.nodes graphC7) = true :=
  C7_edges_distinct_junctions distExample storeC7 graphC7 rfl

theorem form_network_not_ok_of_road (dist : Coord → Coord → ℚ) (raw : RawOSM)
    (h : raw.ways.any roadWay = true) :
    (form_network_from_osm dist raw).isOk = false := by
  unfold form_network_from_osm
  cases ha : addNodesLoop raw.nodes { nodes := [], edges := [] } with
  | error e => rw [error_bind]; rfl
  | ok g1 =>
      rw [ok_bind]
      exact waysLoop_not_ok dist raw.nodes raw.ways g1 h

/-- C1: the `start_element` handler compares the stack top — an
`(identity, entity)` pair — against the class `Way` with `type(parent) ==
Way`, which is never true, so the `ref` of a `point-ref` child is never
appended: the way committed for `docC1` (one path with one `point-ref`
child `ref="22"`) has an empty point sequence. -/
theorem C1_point_ref_dropped :
    read_osm (.wellFormed (docEvents docC1)) =
      .ok { nodes := [], ways := [(11, .wayV { nodes := [], tags := [] })] } := rfl

/-- C2: the same stack-top type check (`type(parent) in [Node, Way]`)
never fires for `tag` children either, so the point committed for `docC2`
(one point with one `tag` child `k="amenity" v="pub"`) has an empty tag
map. -/
theorem C2_tag_dropped :
    read_osm (.wellFormed (docEvents docC2)) =
      .ok { nodes := [(5, .nodeV { coord := (1, 2), tags := [] })], ways := [] } := rfl

/-- C3: on the concrete three-point scenario document the pipeline returns
the empty graph — the parser dropped every tag and every point reference,
so no point is a junction and the path is skipped as non-road — instead of
the two junction nodes and the one `Elm St` edge the claim expects. -/
theorem C3_scenario_empty_graph (dist : Coord → Coord → ℚ) :
    Except.bind (read_osm (.wellFormed (docEvents docC3)))
      (form_network_from_osm dist) = .ok { nodes := [], edges := [] } := rfl

/-- C4 counterexample: on `storeC4`, whose only way is a road path
referencing the absent point 5, the reducer raises `AttributeError`
(reading `.coord` off the integer `way.nodes[0]`) instead of skipping the
dangling reference and returning a graph. -/
theorem C4_counterexample :
    storeC4.ways.any (roadWayWithDangling storeC4.nodes) = true ∧
    form_network_from_osm distExample storeC4 =
      .error (.attributeError "coord") := ⟨rfl, rfl⟩

/-- C4 (amended): a dangling reference inside a Path that carries the
`highway` tag is not tolerated: the reducer raises an exception (it
already raises on reading `way.nodes[0].coord`) and returns no graph.
Only a Path without the `highway` tag is skipped with its references
unexamined. -/
theorem C4_dangling_reference_crashes (dist : Coord → Coord → ℚ) (raw : RawOSM)
    (h : raw.ways.any (roadWayWithDangling raw.nodes) = true) :
    (form_network_from_osm dist raw).isOk = false := by
  apply form_network_not_ok_of_road
  rw [List.any_eq_true] at h ⊢
  obtain ⟨p, hp, hroad⟩ := h
  refine ⟨p, hp, ?_⟩
  obtain ⟨i, v⟩ := p
  cases v with
  | wayV w =>
      simp only [roadWayWithDangling, Bool.and_eq_true] at hroad
      simp only [roadWay]
      exact hroad.1
  | nodeV n => simp [roadWayWithDangling] at hroad
  | noneV => simp [roadWayWithDangling] at hroad
  | tupIdV a b => simp [roadWayWithDangling] at hroad

/-- C4 witness: the amended claim applied to `storeC4`. -/
theorem C4_dangling_reference_crashes_witness :
    storeC4.ways.any (roadWayWithDangling storeC4.nodes) = true ∧
    (form_network_from_osm distExample storeC4).isOk = false :=
  ⟨rfl, C4_dangling_reference_crashes distExample storeC4 rfl⟩

/-- C5: on `storeC5`, whose road way carries the unknown class
`superhighway`, the reducer raises `AttributeError` while reading
`way.nodes[0].coord` — before the speed table is ever consulted — not a
configuration error naming the class.  (Had it got there, the lookup
would raise a bare `KeyError`: the source's `except IndexError` handler,
which would name the class, cannot catch it.) -/
theorem C5_unknown_class_no_config_error (dist : Coord → Coord → ℚ) :
    form_network_from_osm dist storeC5 = .error (.attributeError "coord") := rfl

/-- C8: a failing parse never surfaces a store.  An unopenable stream and
malformed markup are converted to `ValueError`; an exception raised by a
handler on any event of a well-formed stream propagates, so `read_osm`
returns an error for the whole input and no `RawOSM` at all. -/
theorem C8_failures_abort (fn : String) (l c : Nat) (pre : List Event)
    (e : Event) (post : List Event) (st : PState)
    (hpre : runEvents pre initState = .ok st)
    (herr : (processEvent st e).isOk = false) :
    (read_osm (.ioFailure fn)).isOk = false ∧
    (read_osm (.expatFailure l c)).isOk = false ∧
    (read_osm (.wellFormed (pre ++ e :: post))).isOk = false := by
  refine ⟨rfl, rfl, ?_⟩
  show (Except.bind (runEvents (pre ++ e :: post) initState) _).isOk = false
  rw [runEvents_append, hpre, ok_bind]
  simp only [runEvents]
  cases hp : processEvent st e with
  | ok st' => rw [hp] at herr; simp [Except.isOk, Except.toBool] at herr
  | error er => rw [error_bind, error_bind]; rfl

/-- C8 witness: an unreadable file, a markup failure at line 3 column 7,
and a well-formed stream whose second event is the unrecognized element
`bogus` all make `read_osm` return an error. -/
theorem C8_failures_abort_witness :
    (read_osm (.ioFailure "map.osm")).isOk = false ∧
    (read_osm (.expatFailure 3 7)).isOk = false ∧
    (read_osm (.wellFormed ([Event.start "osm" []] ++
      Event.start "bogus" [] :: []))).isOk = false :=
  C8_failures_abort "map.osm" 3 7 [Event.start "osm" []]
    (Event.start "bogus" []) [] initState rfl rfl

/-- C9: a store holding a Path that carries the `highway` tag and has an
empty point sequence makes the reducer raise (`way.nodes[0]` on the empty
list) rather than skip the Path or return a graph. -/
theorem C9_empty_road_path_raises (dist : Coord → Coord → ℚ) (raw : RawOSM)
    (h : raw.ways.any emptyRoadWay = true) :
    (form_network_from_osm dist raw).isOk = false := by
  apply form_network_not_ok_of_road
  rw [List.any_eq_true] at h ⊢
  obtain ⟨p, hp, hroad⟩ := h
  refine ⟨p, hp, ?_⟩
  obtain ⟨i, v⟩ := p
  cases v with
  | wayV w =>
      simp only [emptyRoadWay, Bool.and_eq_true] at hroad
      simp only [roadWay]
      exact hroad.1
  | nodeV n => simp [emptyRoadWay] at hroad
  | noneV => simp [emptyRoadWay] at hroad
  | tupIdV a b => simp [emptyRoadWay] at hroad

/-- C9 witness: on `storeC9`, whose only way is a road path with an empty
point sequence, the reducer returns no graph (it raises `IndexError`). -/
theorem C9_empty_road_path_raises_witness :
    storeC9.ways.any emptyRoadWay = true ∧
    (form_network_from_osm distExample storeC9).isOk = false :=
  ⟨rfl, C9_empty_road_path_raises distExample storeC9 rfl⟩

end OsmABTS
